import Mathlib

/-!
# Verification of the proxypilotv2 backend controller

Shallow embedding of the two snapshots of `backend_controller.py`:

* `V1` embeds `src/src/services/backend_controller.py` (combined port pool
  starting at 8000, socks = http + 1, tunnel supervision, config updates);
* `V2` embeds `src/backend_controller.py` (disjoint port ranges
  http = range(7001, 8000), socks = range(8001, 9000)).

Python dictionaries are modelled as insertion-ordered association lists
(`lookupKV` finds the first binding, `setKV` replaces in place or appends,
matching CPython dict semantics).  JSON scalar values are modelled by `Val`.
The filesystem used by the state store is a map from path to file content.
A file's bytes are modelled by `FileContent`: the serialization of a
document (the external `json` library round-trips it), UTF-8 text that
fails to parse as JSON (raising `json.JSONDecodeError`), or bytes that are
not valid UTF-8 — reading those makes the text-mode read raise
`UnicodeDecodeError`, which the sources' `except` clauses do not catch.
-/

namespace ProxyPilot

/-- A JSON scalar value as stored in the persisted state documents
(`proxy_configs.json`, `tunnel_pids.json`).  `null` models Python `None`. -/
inductive Val : Type where
  | num (n : Int)
  | str (s : String)
  | null
deriving DecidableEq, Repr

/-- Python truthiness of a value: `0`, `""` and `None` are falsy. -/
def Val.truthy : Val → Bool
  | .num n => n != 0
  | .str s => s != ""
  | .null => false

/-- Truthiness of `dict.get(key)`: a missing key yields `None`, which is falsy. -/
def truthyO : Option Val → Bool
  | none => false
  | some v => v.truthy

/-- Python `str(value)`, as used by f-string interpolation of config values. -/
def Val.pyStr : Val → String
  | .num n => toString n
  | .str s => s
  | .null => "None"

/-- One proxy/tunnel record: a Python dict from field name to scalar value. -/
abbrev Config := List (String × Val)

/-- A persisted state document: a Python dict from identifier to record. -/
abbrev Table := List (String × Config)

/-- `d.get(k)` / `d[k]`: first binding for the key, if any. -/
def lookupKV {α : Type} : List (String × α) → String → Option α
  | [], _ => none
  | (k, v) :: t, q => if k = q then some v else lookupKV t q

/-- `d[k] = v`: replace the binding in place if the key exists, else append
(CPython dicts preserve insertion order and update in place). -/
def setKV {α : Type} : List (String × α) → String → α → List (String × α)
  | [], q, v => [(q, v)]
  | (k, w) :: t, q, v => if k = q then (q, v) :: t else (k, w) :: setKV t q v

/-- `del d[k]` (dict keys are unique, so removing every binding for the key
is the same as removing the one binding). -/
def eraseKV {α : Type} (l : List (String × α)) (q : String) : List (String × α) :=
  l.filter (fun e => e.1 != q)

/-! ## Filesystem and state-store model -/

/-- Bytes persisted for one state file: `good d` is the UTF-8 serialization
of document `d` (the external `json` library round-trips it:
`json.load (json.dump d) = d`); `corrupt` is UTF-8 text that fails to parse
as JSON (`json.load` raises `json.JSONDecodeError`); `undecodable` is a byte
sequence that is not valid UTF-8, so the text-mode read underneath
`json.load(f)` raises `UnicodeDecodeError` before any JSON parsing. -/
inductive FileContent (α : Type) : Type where
  | good (d : α)
  | corrupt
  | undecodable
deriving DecidableEq

/-- The filesystem: a map from path to file content; `none` means the file
does not exist. -/
def FSys (α : Type) : Type := String → Option (FileContent α)

/-- `os.replace` / plain rewrite of one path. -/
def FSys.update {α : Type} (fs : FSys α) (p : String) (c : FileContent α) : FSys α :=
  fun q => if q = p then some c else fs q

namespace V1

/-- `read_state_file` (src/src/services/backend_controller.py:81-88): a
missing file returns the default; a serialized document is parsed back;
UTF-8 text that is not JSON raises `json.JSONDecodeError`, which the
`except (json.JSONDecodeError, IOError, FileNotFoundError)` clause catches,
returning the default; but bytes that are not valid UTF-8 raise
`UnicodeDecodeError`, which that clause does not name, so the exception
propagates out of `read_state_file`. -/
def read_state_file {α : Type} (fs : FSys α) (path : String) (dflt : α) : Except String α :=
  match fs path with
  | none => .ok dflt
  | some (.good d) => .ok d
  | some .corrupt => .ok dflt
  | some .undecodable => .error "UnicodeDecodeError: invalid continuation byte"

/-- `write_state_file` (src/src/services/backend_controller.py:90-92): rewrite
the file with the serialized document. -/
def write_state_file {α : Type} (fs : FSys α) (path : String) (d : α) : FSys α :=
  fs.update path (.good d)

end V1

namespace V2

/-- `read_state_file` (src/backend_controller.py:72-80): same branches as the
V1 snapshot — the file is opened with `encoding='utf-8'` and the
`except (json.JSONDecodeError, IOError)` clause likewise does not catch the
`UnicodeDecodeError` raised for undecodable bytes; the shared lock is
irrelevant to the sequential model. -/
def read_state_file {α : Type} (fs : FSys α) (path : String) (dflt : α) : Except String α :=
  match fs path with
  | none => .ok dflt
  | some (.good d) => .ok d
  | some .corrupt => .ok dflt
  | some .undecodable => .error "UnicodeDecodeError: invalid continuation byte"

/-- `write_state_file` (src/backend_controller.py:82-89): serialize into a
temporary file, atomically move it into place with `os.replace`, and report
success (`False` is returned only on an IO/serialization error, which the
sequential filesystem model does not produce). -/
def write_state_file {α : Type} (fs : FSys α) (path : String) (d : α) : Bool × FSys α :=
  (true, fs.update path (.good d))

end V2

/-! ## Log ring buffer -/

namespace V1

/-- `LOG_MAX_ENTRIES` (both snapshots). -/
def LOG_MAX_ENTRIES : Nat := 200

/-- The `while len(lines) >= LOG_MAX_ENTRIES: lines.pop(0)` loop of
`log_message` (src/src/services/backend_controller.py:34-35). -/
def evictOldest {α : Type} (l : List α) : List α :=
  if 200 ≤ l.length then evictOldest l.tail else l
termination_by l.length
decreasing_by
  simp only [List.length_tail]
  omega

/-- One `log_message` append (src/src/services/backend_controller.py:26-40):
read the current lines, evict from the front while at or above the bound,
append the new entry, write everything back. -/
def log_append {α : Type} (l : List α) (e : α) : List α :=
  evictOldest l ++ [e]

end V1

namespace V2

/-- One `log_message` append (src/backend_controller.py:45-70): under the
exclusive lock, if the line count is at or above `LOG_MAX_ENTRIES` keep only
the last `LOG_MAX_ENTRIES - 1` lines (`lines[-(200 - 1):]`), then append the
new entry. -/
def log_append {α : Type} (l : List α) (e : α) : List α :=
  (if 200 ≤ l.length then l.drop (l.length - 199) else l) ++ [e]

end V2

/-! ## Allocator -/

/-- A natural number stored as a JSON integer (Python `int`). -/
def natVal (p : Nat) : Val := Val.num (Int.ofNat p)

/-- `config.get('httpPort')`. -/
def httpOf (c : Config) : Option Val := lookupKV c "httpPort"

/-- `config.get('socksPort')`. -/
def socksOf (c : Config) : Option Val := lookupKV c "socksPort"

namespace V1

/-- `PORT_RANGE_START` / `PORT_RANGE_END` (src/src/services/backend_controller.py:22-23). -/
def PORT_RANGE_START : Nat := 8000

def PORT_RANGE_END : Nat := 9000

/-- The combined `used_ports` set (src/src/services/backend_controller.py:98-101):
every `httpPort` and every `socksPort` value of every entry. -/
def usedPorts (t : Table) : List Val :=
  t.flatMap (fun e => (httpOf e.2).toList ++ (socksOf e.2).toList)

/-- The `while new_http_port in used_ports or (new_http_port + 1) in used_ports`
scan (src/src/services/backend_controller.py:103-107): step by 2 from the
current candidate; after each step, if `candidate + 1` exceeds the range the
pool is exhausted.  `fuel` bounds the recursion; any value above 501 makes the
fuel branch unreachable because the exhaustion check fires first. -/
def findPortPair (used : List Val) : Nat → Nat → Option Nat
  | p, 0 =>
    if natVal p ∈ used ∨ natVal (p + 1) ∈ used then none else some p
  | p, fuel + 1 =>
    if natVal p ∈ used ∨ natVal (p + 1) ∈ used then
      if 9000 < p + 2 + 1 then none else findPortPair used (p + 2) fuel
    else some p

/-- The freshly generated allocation record
(src/src/services/backend_controller.py:115-123); `tok2`/`tok8` stand for the
`secrets.token_hex` draws. -/
def createConfig (tok2 tok8 : String) (hp : Nat) : Config :=
  [("httpPort", natVal hp), ("socksPort", natVal (hp + 1)),
   ("username", Val.str ("user_" ++ tok2)), ("password", Val.str tok8),
   ("type", Val.str "Proxy"), ("bindIp", Val.null), ("customName", Val.null)]

/-- The creation path shared by both branches of the guard. -/
def allocateNew (tok2 tok8 : String) (t : Table) : Except String (Config × Bool) :=
  match findPortPair (usedPorts t) 8000 600 with
  | some hp => .ok (createConfig tok2 tok8 hp, true)
  | none => .error "No available ports in the specified range."

/-- `get_or_create_proxy_config` (src/src/services/backend_controller.py:94-125):
return the existing entry unchanged iff it exists and has both port keys;
otherwise allocate a fresh record. -/
def get_or_create_proxy_config (name tok2 tok8 : String) (t : Table) :
    Except String (Config × Bool) :=
  match lookupKV t name with
  | some cfg =>
    if (httpOf cfg).isSome ∧ (socksOf cfg).isSome then .ok (cfg, false)
    else allocateNew tok2 tok8 t
  | none => allocateNew tok2 tok8 t

/-- The call-site pattern of `get_all_modem_statuses`
(src/src/services/backend_controller.py:300-303): persist the allocation back
into the table only when it was newly created. -/
def reconcileOne (name tok2 tok8 : String) (t : Table) : Except String (Config × Table) :=
  match get_or_create_proxy_config name tok2 tok8 t with
  | .ok (cfg, created) => .ok (cfg, if created then setKV t name cfg else t)
  | .error e => .error e

end V1

namespace V2

/-- Port range configuration (src/backend_controller.py:25-28). -/
def HTTP_PORT_RANGE_START : Nat := 7001

def HTTP_PORT_RANGE_END : Nat := 8000

def SOCKS_PORT_RANGE_START : Nat := 8001

def SOCKS_PORT_RANGE_END : Nat := 9000

/-- `{c.get('httpPort') for c in all_configs.values()}`
(src/backend_controller.py:147): one `Option` per entry, `none` for a missing
key (Python `None`). -/
def usedHttpPorts (t : Table) : List (Option Val) := t.map (fun e => httpOf e.2)

/-- `{c.get('socksPort') for c in all_configs.values()}`
(src/backend_controller.py:148). -/
def usedSocksPorts (t : Table) : List (Option Val) := t.map (fun e => socksOf e.2)

/-- `next((p for p in range(start, stop) if p not in used), None)`
(src/backend_controller.py:150-151): the lowest port of the half-open range
not already used. -/
def findFreePort (used : List (Option Val)) (start stop : Nat) : Option Nat :=
  (List.range' start (stop - start)).find? (fun p => !(decide (some (natVal p) ∈ used)))

/-- The freshly generated allocation record (src/backend_controller.py:155). -/
def mkConfig (hp sp : Nat) (tok2 tok8 : String) : Config :=
  [("httpPort", natVal hp), ("socksPort", natVal sp),
   ("username", Val.str ("user_" ++ tok2)), ("password", Val.str tok8),
   ("customName", Val.null)]

/-- `get_or_create_proxy_config` (src/backend_controller.py:144-157): an
existing entry is returned unchanged; otherwise the lowest unused port of each
range is claimed, raising when either scan is exhausted. -/
def get_or_create_proxy_config (name tok2 tok8 : String) (t : Table) :
    Except String (Config × Bool) :=
  match lookupKV t name with
  | some cfg => .ok (cfg, false)
  | none =>
    match findFreePort (usedHttpPorts t) 7001 8000, findFreePort (usedSocksPorts t) 8001 9000 with
    | some hp, some sp => .ok (mkConfig hp sp tok2 tok8, true)
    | _, _ => .error "No available ports in range."

/-- The call-site pattern of `get_all_modem_statuses`
(src/backend_controller.py:230-233): persist the allocation only when newly
created. -/
def reconcileOne (name tok2 tok8 : String) (t : Table) : Except String (Config × Table) :=
  match get_or_create_proxy_config name tok2 tok8 t with
  | .ok (cfg, created) => .ok (cfg, if created then setKV t name cfg else t)
  | .error e => .error e

end V2

/-! ## Port-uniqueness invariant (C1) -/

/-- Two table entries have distinct `httpPort` values and distinct
`socksPort` values (whenever both are present). -/
def PortsDistinct (a b : String × Config) : Prop :=
  (∀ v, httpOf a.2 = some v → httpOf b.2 ≠ some v) ∧
  (∀ v, socksOf a.2 = some v → socksOf b.2 ≠ some v)

/-- Allocation tables reachable from the empty table by a sequence of V1
`get_or_create_proxy_config` calls, each newly created allocation persisted
back before the next call (the `get_all_modem_statuses` pattern). -/
inductive ReachV1 : Table → Prop where
  | nil : ReachV1 []
  | step {t : Table} {name tok2 tok8 : String} {cfg : Config} :
      ReachV1 t →
      V1.get_or_create_proxy_config name tok2 tok8 t = .ok (cfg, true) →
      ReachV1 (setKV t name cfg)

/-- Same reachability notion for the V2 allocator. -/
inductive ReachV2 : Table → Prop where
  | nil : ReachV2 []
  | step {t : Table} {name tok2 tok8 : String} {cfg : Config} :
      ReachV2 t →
      V2.get_or_create_proxy_config name tok2 tok8 t = .ok (cfg, true) →
      ReachV2 (setKV t name cfg)

/-! ## Config renderer (V2 snapshot) -/

/-- `str(dict.get(key))` as interpolated by the f-strings. -/
def pyStrO : Option Val → String
  | none => "None"
  | some w => w.pyStr

namespace V2

/-- The fixed header lines of `generate_3proxy_config_content`
(src/backend_controller.py:164). -/
def baseLines : List String :=
  ["nscache 65536", "nserver 8.8.8.8", "nserver 8.8.4.4",
   "timeouts 1 5 30 60 180 1800 15 60", "daemon"]

/-- `proxy_flags` (src/backend_controller.py:171). -/
def proxyFlags (authed : Bool) : String := if authed then "-n" else "-n -a"

/-- The line list built by `generate_3proxy_config_content`
(src/backend_controller.py:159-175) before joining: `None` when the egress IP
is falsy or either port value is falsy (`not config.get(...)`), otherwise the
header, the credential block (authenticated iff both username and password
are truthy), the two listener lines bound to `0.0.0.0` with egress `-e`, and
`flush`. -/
def generate_3proxy_lines (c : Config) (egress_ip : String) : Option (List String) :=
  if egress_ip = "" ∨ truthyO (httpOf c) = false ∨ truthyO (socksOf c) = false then none
  else
    some ((baseLines ++
      (if truthyO (lookupKV c "username") && truthyO (lookupKV c "password") then
        ["users " ++ pyStrO (lookupKV c "username") ++ ":CL:" ++ pyStrO (lookupKV c "password"),
         "auth strong", "allow " ++ pyStrO (lookupKV c "username")]
      else ["auth none"])) ++
      ["proxy " ++ proxyFlags (truthyO (lookupKV c "username") && truthyO (lookupKV c "password")) ++
        " -p" ++ pyStrO (httpOf c) ++ " -i0.0.0.0 -e" ++ egress_ip,
       "socks -p" ++ pyStrO (socksOf c) ++ " -i0.0.0.0 -e" ++ egress_ip,
       "flush"])

/-- `generate_3proxy_config_content` (src/backend_controller.py:159-175):
the joined configuration text, or `None`. -/
def generate_3proxy_config_content (c : Config) (egress_ip : String) : Option String :=
  (generate_3proxy_lines c egress_ip).map (String.intercalate "\n")

end V2

/-! ## External command outcomes, service status, tunnels, config updates -/

/-- Outcome of one external command invocation, as observed by
`subprocess.run`: normal completion with exit code and captured output
streams, a timeout, or a missing binary (`FileNotFoundError`). -/
inductive CmdOutcome : Type where
  | completed (exitCode : Nat) (stdout : String) (stderr : String)
  | timedOut (stderr : String)
  | notFound
deriving DecidableEq

/-- The Python exception class raised out of `run_command` in the V1
snapshot.  `run_command` only ever raises the base `Exception` class
(`generic`); the two subclass constructors exist because
`get_proxy_status` names them in an `except` clause. -/
inductive PyExc : Type where
  | calledProcessError
  | timeoutExpired
  | generic (msg : String)
deriving DecidableEq

/-- `pat` is a prefix of `s` (on character lists). -/
def startsWithL : List Char → List Char → Bool
  | [], _ => true
  | _ :: _, [] => false
  | c :: cs, d :: ds => c == d && startsWithL cs ds

/-- `pat` occurs inside `s` (on character lists). -/
def hasInfixL (pat : List Char) : List Char → Bool
  | [] => startsWithL pat []
  | d :: ds => startsWithL pat (d :: ds) || hasInfixL pat ds

/-- Python `pat in s` substring test. -/
def containsSub (s pat : String) : Bool := hasInfixL pat.data s.data

/-- Python `s.lower()`. -/
def lowerStr (s : String) : String := String.mk (s.data.map Char.toLower)

namespace V1

/-- `run_command` (src/src/services/backend_controller.py:43-69) for a
check=True invocation: a zero exit returns the stripped stdout; a non-zero
exit is caught as `CalledProcessError` and either converted to a JSON error
payload (bearer / vnstat special cases; the embedded message is modelled
without JSON escaping, its content is never inspected) or re-raised as a
plain `Exception`; timeouts and missing binaries are also re-raised as plain
`Exception`s. -/
def run_command (oc : CmdOutcome) : Except PyExc String :=
  match oc with
  | .completed ec out err =>
    if ec = 0 then .ok out
    else
      let errOut := if err ≠ "" then err else "No error output."
      if containsSub (lowerStr errOut) "couldn\x27t find bearer" then
        .ok ("\x7b\"bearer_error\": true, \"message\": \"" ++ errOut ++ "\"\x7d")
      else if containsSub (lowerStr errOut) "unable to read database" then
        .ok ("\x7b\"vnstat_error\": \"not_ready\", \"message\": \"" ++ errOut ++ "\"\x7d")
      else if containsSub errOut "Unit 3proxy@" && containsSub errOut "not found" then
        .error (.generic ("Systemd unit file not found. " ++ errOut))
      else
        .error (.generic ("Command failed. " ++ errOut))
  | .timedOut _ => .error (.generic "Command timed out")
  | .notFound => .error (.generic "Command not found")

/-- `get_proxy_status` (src/src/services/backend_controller.py:173-183): a
disconnected modem reports `stopped`; a successful `is-active` query reports
`running`; the `except (CalledProcessError, TimeoutExpired)` clause would
report `stopped`, but `run_command` never lets those classes escape, so every
failing query lands in the final `except Exception` and reports `error`. -/
def get_proxy_status (iface modemStatus : String) (oc : CmdOutcome) : String :=
  if modemStatus ≠ "connected" then "stopped"
  else
    match run_command oc with
    | .ok _ => "running"
    | .error .calledProcessError => "stopped"
    | .error .timeoutExpired => "stopped"
    | .error (.generic _) => "error"

end V1

namespace V2

/-- `run_command` (src/backend_controller.py:128-136) as invoked by
`get_proxy_status` with `check=False, suppress_error=True`: a completed run
(any exit code) returns its stripped stdout; a caught timeout or missing
binary returns the captured error text instead of raising. -/
def run_command_suppressed (oc : CmdOutcome) : String :=
  match oc with
  | .completed _ out _ => out
  | .timedOut err => if err ≠ "" then err else "No error output."
  | .notFound => "No error output."

/-- `get_proxy_status` (src/backend_controller.py:138-142): `running` iff the
query text is exactly `active`, otherwise `stopped`; nothing raises, so the
outer `except` is unreachable. -/
def get_proxy_status (oc : CmdOutcome) : String :=
  if run_command_suppressed oc = "active" then "running" else "stopped"

end V2

namespace V1

/-- Persisted state file names (src/src/services/backend_controller.py:17-18). -/
def PROXY_CONFIGS_FILE : String := "proxy_configs.json"

def TUNNEL_PIDS_FILE : String := "tunnel_pids.json"

/-- `get_tunnel_pids` (src/src/services/backend_controller.py:486): reads the
tunnel table, propagating the `UnicodeDecodeError` of an undecodable file. -/
def get_tunnel_pids (fs : FSys Table) : Except String Table :=
  read_state_file fs TUNNEL_PIDS_FILE []

/-- `save_tunnel_pids` (src/src/services/backend_controller.py:487). -/
def save_tunnel_pids (fs : FSys Table) (pids : Table) : FSys Table :=
  write_state_file fs TUNNEL_PIDS_FILE pids

/-- `is_pid_running` (src/src/services/backend_controller.py:489-494): a
falsy pid (missing, `None`, `0`) is not running; a numeric pid is probed with
`os.kill(pid, 0)` (the `alive` oracle; an `OSError` means not running); a
string pid makes `os.kill` raise a `TypeError`, which the function does not
catch. -/
def is_pid_running (alive : Int → Bool) : Option Val → Except String Bool
  | none => .ok false
  | some v =>
    if v.truthy = false then .ok false
    else
      match v with
      | .num n => .ok (alive n)
      | .str _ => .error "TypeError: an integer is required"
      | .null => .ok false

/-- The status record built for a live tunnel
(src/src/services/backend_controller.py:555). -/
def mkTunnelStatus (tid : String) (info : Config) : Config :=
  [("id", Val.str tid),
   ("type", (lookupKV info "type").getD (Val.str "Unknown")),
   ("status", Val.str "active"),
   ("url", (lookupKV info "url").getD Val.null),
   ("localPort", (lookupKV info "port").getD Val.null),
   ("linkedTo", (lookupKV info "linkedTo").getD Val.null)]

/-- The reconciliation loop of `get_all_tunnel_statuses`
(src/src/services/backend_controller.py:553-559): collect a status record
for every live entry, drop every dead entry (flagging the table as changed),
and propagate the uncaught `TypeError` of a malformed pid. -/
def tunnelScan (alive : Int → Bool) : Table → Except String (List Config × Table × Bool)
  | [] => .ok ([], [], false)
  | (tid, info) :: rest =>
    match is_pid_running alive (lookupKV info "pid") with
    | .error e => .error e
    | .ok b =>
      match tunnelScan alive rest with
      | .error e => .error e
      | .ok (sts, keep, changed) =>
        if b then
          .ok (mkTunnelStatus tid info :: sts, (tid, info) :: keep, changed)
        else
          .ok (sts, keep, true)

/-- `get_all_tunnel_statuses` (src/src/services/backend_controller.py:549-561):
reconcile the persisted table against process liveness, persisting the
cleaned table iff something was deleted, and report the live records. -/
def get_all_tunnel_statuses (alive : Int → Bool) (fs : FSys Table) :
    Except String (List Config × FSys Table) :=
  match get_tunnel_pids fs with
  | .error e => .error e
  | .ok pids =>
    match tunnelScan alive pids with
    | .error e => .error e
    | .ok (sts, keep, changed) =>
      .ok (sts, if changed then save_tunnel_pids fs keep else fs)

/-- The numeric value of a pid field (total helper; only applied to values
`is_pid_running` accepted as running, which are numeric). -/
def pidInt : Option Val → Int
  | some (.num n) => n
  | _ => 0

/-- Result document of `stop_tunnel`. -/
structure StopResult : Type where
  success : Bool
  message : String
deriving DecidableEq

/-- `stop_tunnel` (src/src/services/backend_controller.py:532-547): with no
record or a dead pid, drop any stale entry (persisting when one existed) and
report success; with a live pid, signal the process group — an `OSError`
(`killOk` oracle false) is only logged — then delete the record
unconditionally, persist, and report success. -/
def stop_tunnel (alive killOk : Int → Bool) (tid : String) (fs : FSys Table) :
    Except String (StopResult × FSys Table) :=
  match get_tunnel_pids fs with
  | .error e => .error e
  | .ok pids =>
    match lookupKV pids tid with
    | none => .ok (⟨true, "Tunnel was not running."⟩, fs)
    | some info =>
      match is_pid_running alive (lookupKV info "pid") with
      | .error e => .error e
      | .ok true =>
        let _attempted := killOk (pidInt (lookupKV info "pid"))
        .ok (⟨true, "Tunnel stopped."⟩, save_tunnel_pids fs (eraseKV pids tid))
      | .ok false =>
        .ok (⟨true, "Tunnel was not running."⟩, save_tunnel_pids fs (eraseKV pids tid))

/-- Result document of `update_proxy_config`. -/
structure UpdResult : Type where
  success : Bool
  data : Config
deriving DecidableEq

/-- The `for key, value in updates.items(): all_configs[interface_name][key] = value`
loop (src/src/services/backend_controller.py:649-650). -/
def apply_updates (base : Config) (updates : Config) : Config :=
  updates.foldl (fun c kv => setKV c kv.1 kv.2) base

/-- `update_proxy_config` (src/src/services/backend_controller.py:643-659):
read the table, insert an empty record when the interface has none, apply
the update fields, persist, and report success with the updated record.  An
exception raised by the read (an undecodable state file) is caught by the
function's own `except Exception` and reported as `success = False`; that
error result carries an error string and no data, for which the empty record
stands in here.  The returned flag is true when the function goes on to
restart the proxy (a credential field was updated and `get_proxy_status`
reports `running`); that restart only invokes the external service
controller and is outside this model. -/
def update_proxy_config (oc : CmdOutcome) (iface : String) (updates : Config)
    (fs : FSys Table) : UpdResult × FSys Table × Bool :=
  match read_state_file fs PROXY_CONFIGS_FILE [] with
  | .error _ => (⟨false, []⟩, fs, false)
  | .ok all =>
    let entry := apply_updates ((lookupKV all iface).getD []) updates
    let fs2 := write_state_file fs PROXY_CONFIGS_FILE (setKV all iface entry)
    let credUpdate := updates.any (fun kv => kv.1 == "username" || kv.1 == "password")
    (⟨true, entry⟩, fs2, credUpdate && (get_proxy_status iface "connected" oc == "running"))

end V1

/-- The pid probe of a record did not raise (spec-side Bool wrapper around
`V1.is_pid_running`). -/
def probeOk (alive : Int → Bool) (pv : Option Val) : Bool :=
  match V1.is_pid_running alive pv with
  | .ok _ => true
  | .error _ => false

/-- The probe reported the record's pid alive. -/
def liveB (alive : Int → Bool) (e : String × Config) : Bool :=
  match V1.is_pid_running alive (lookupKV e.2 "pid") with
  | .ok true => true
  | _ => false

/-- The entries of a tunnel table whose pid probe reports alive. -/
def livePids (alive : Int → Bool) (t : Table) : Table := t.filter (liveB alive)

/-! ## Lemmas for the tunnel supervisor and config updates -/

/-! ## Theorems -/

@[simp] theorem lookupKV_nil {α : Type} (q : String) : lookupKV ([] : List (String × α)) q = none := rfl

@[simp] theorem lookupKV_cons {α : Type} (k : String) (v : α) (t : List (String × α)) (q : String) :
    lookupKV ((k, v) :: t) q = if k = q then some v else lookupKV t q := rfl

theorem lookupKV_setKV {α : Type} (l : List (String × α)) (q k : String) (v : α) :
    lookupKV (setKV l q v) k = if q = k then some v else lookupKV l k := by
  induction l with
  | nil =>
    simp only [setKV, lookupKV]
  | cons e t ih =>
    obtain ⟨k₀, v₀⟩ := e
    by_cases h : k₀ = q
    · subst h
      simp only [setKV, if_pos rfl, lookupKV_cons]
      by_cases h2 : k₀ = k
      · simp [h2]
      · simp [h2]
    · have hq : ¬ (q = k₀) := fun e => h e.symm
      simp only [setKV, if_neg h, lookupKV_cons, ih]
      by_cases h2 : k₀ = k
      · subst h2
        simp [hq]
      · simp [h2]

theorem mem_setKV {α : Type} {l : List (String × α)} {q : String} {v : α} {e : String × α}
    (h : e ∈ setKV l q v) : e ∈ l ∨ e = (q, v) := by
  induction l with
  | nil =>
    simp only [setKV, List.mem_singleton] at h
    exact Or.inr h
  | cons hd t ih =>
    obtain ⟨k₀, v₀⟩ := hd
    simp only [setKV] at h
    split at h
    · rcases List.mem_cons.mp h with h1 | h1
      · exact Or.inr h1
      · exact Or.inl (List.mem_cons_of_mem _ h1)
    · rcases List.mem_cons.mp h with h1 | h1
      · exact Or.inl (h1 ▸ List.mem_cons_self _ _)
      · rcases ih h1 with h2 | h2
        · exact Or.inl (List.mem_cons_of_mem _ h2)
        · exact Or.inr h2

theorem lookupKV_eraseKV {α : Type} (l : List (String × α)) (q : String) :
    lookupKV (eraseKV l q) q = none := by
  induction l with
  | nil => rfl
  | cons e t ih =>
    obtain ⟨k₀, v₀⟩ := e
    simp only [eraseKV, List.filter] at ih ⊢
    by_cases h : k₀ = q
    · simp only [h, bne_self_eq_false]
      exact ih
    · have : (k₀ != q) = true := bne_iff_ne.mpr h
      simp only [this, lookupKV]
      rw [if_neg h]
      exact ih

@[simp] theorem V1.read_write {α : Type} (fs : FSys α) (path : String) (d dflt : α) :
    V1.read_state_file (V1.write_state_file fs path d) path dflt = .ok d := by
  simp [V1.read_state_file, V1.write_state_file, FSys.update]

theorem V1.evictOldest_aux {α : Type} : ∀ (n : Nat) (l : List α), l.length = n →
    V1.evictOldest l = l.drop (l.length - 199) := by
  intro n
  induction n using Nat.strong_induction_on with
  | _ n ih =>
    intro l hl
    rw [V1.evictOldest]
    split
    · rename_i h
      have ht : l.tail.length = l.length - 1 := List.length_tail l
      rw [ih (n - 1) (by omega) l.tail (by omega)]
      rw [ht]
      have h1 : l.tail = l.drop 1 := (List.drop_one l).symm
      rw [h1, List.drop_drop]
      have h2 : 1 + (l.length - 1 - 199) = l.length - 199 := by omega
      rw [h2]
    · rename_i h
      have : l.length - 199 = 0 := by omega
      rw [this, List.drop_zero]

theorem V1.evictOldest_closed {α : Type} (l : List α) :
    V1.evictOldest l = l.drop (l.length - 199) :=
  V1.evictOldest_aux l.length l rfl

/-- Both snapshots' appends agree on the same closed form. -/
theorem log_append_closed_form {α : Type} (l : List α) (e : α) :
    V1.log_append l e = l.drop (l.length - 199) ++ [e] ∧
    V2.log_append l e = l.drop (l.length - 199) ++ [e] := by
  constructor
  · rw [V1.log_append, V1.evictOldest_closed]
  · rw [V2.log_append]
    split
    · rfl
    · rename_i h
      have : l.length - 199 = 0 := by omega
      rw [this, List.drop_zero]

theorem log_append_length {α : Type} (l : List α) (e : α) :
    (V1.log_append l e).length ≤ 200 ∧ (V2.log_append l e).length ≤ 200 := by
  obtain ⟨h1, h2⟩ := log_append_closed_form l e
  rw [h1, h2]
  simp only [List.length_append, List.length_drop, List.length_singleton]
  omega

/-- Folding any append with the common closed form from the empty log retains
exactly the most recent 200 entries, in order. -/
theorem log_foldl_core {α : Type} (f : List α → α → List α)
    (hf : ∀ l x, f l x = l.drop (l.length - 199) ++ [x]) (es : List α) :
    List.foldl f [] es = es.drop (es.length - 200) := by
  induction es using List.reverseRecOn with
  | nil => simp
  | append_singleton es e ih =>
    rw [List.foldl_append, List.foldl_cons, List.foldl_nil, hf, ih]
    rw [List.length_drop, List.drop_drop]
    have hlen : (es ++ [e]).length = es.length + 1 := by simp
    rw [hlen]
    rw [List.drop_append_of_le_length (by omega)]
    have harith : es.length - 200 + (es.length - (es.length - 200) - 199)
        = es.length + 1 - 200 := by omega
    rw [harith]

theorem natVal_inj {p q : Nat} (h : natVal p = natVal q) : p = q := by
  simpa [natVal] using h

theorem portsDistinct_symm : Symmetric PortsDistinct := by
  intro a b h
  obtain ⟨h1, h2⟩ := h
  constructor
  · intro v hb ha
    exact h1 v ha hb
  · intro v hb ha
    exact h2 v ha hb

/-- Replacing (or appending) a binding preserves pairwise distinctness,
provided the new record is distinct from every existing entry. -/
theorem pairwise_setKV {P : (String × Config) → (String × Config) → Prop}
    (hsym : ∀ a b, P a b → P b a) :
    ∀ (l : Table) (q : String) (c : Config),
      l.Pairwise P → (∀ e ∈ l, P e (q, c)) → (setKV l q c).Pairwise P := by
  intro l
  induction l with
  | nil =>
    intro q c _ _
    simp [setKV]
  | cons hd t ih =>
    intro q c hp hall
    obtain ⟨k₀, v₀⟩ := hd
    rw [setKV]
    split
    · refine List.Pairwise.cons ?_ hp.of_cons
      intro e he
      exact hsym _ _ (hall e (List.mem_cons_of_mem _ he))
    · refine List.Pairwise.cons ?_ ?_
      · intro e he
        rcases mem_setKV he with h1 | h1
        · exact (List.pairwise_cons.mp hp).1 e h1
        · subst h1
          exact hall (k₀, v₀) (List.mem_cons_self _ _)
      · exact ih q c hp.of_cons (fun e he => hall e (List.mem_cons_of_mem _ he))

theorem V1.mem_usedPorts_of_http {t : Table} {k : String} {c : Config} {v : Val}
    (hm : (k, c) ∈ t) (hv : httpOf c = some v) : v ∈ V1.usedPorts t := by
  rw [V1.usedPorts, List.mem_flatMap]
  refine ⟨(k, c), hm, ?_⟩
  rw [hv]
  simp

theorem V1.mem_usedPorts_of_socks {t : Table} {k : String} {c : Config} {v : Val}
    (hm : (k, c) ∈ t) (hv : socksOf c = some v) : v ∈ V1.usedPorts t := by
  rw [V1.usedPorts, List.mem_flatMap]
  refine ⟨(k, c), hm, ?_⟩
  rw [hv]
  cases httpOf c <;> simp

theorem V1.findPortPair_free {used : List Val} :
    ∀ (fuel p q : Nat), V1.findPortPair used p fuel = some q →
      natVal q ∉ used ∧ natVal (q + 1) ∉ used := by
  intro fuel
  induction fuel with
  | zero =>
    intro p q h
    rw [V1.findPortPair] at h
    split at h
    · exact absurd h (by simp)
    · rename_i hfree
      obtain rfl : p = q := by injection h
      push_neg at hfree
      exact hfree
  | succ fuel ih =>
    intro p q h
    rw [V1.findPortPair] at h
    split at h
    · split at h
      · exact absurd h (by simp)
      · exact ih (p + 2) q h
    · rename_i hfree
      obtain rfl : p = q := by injection h
      push_neg at hfree
      exact hfree

/-- Inversion of the V1 allocator's creation path. -/
theorem V1.goc_created_inv_v1 {name tok2 tok8 : String} {t : Table} {cfg : Config}
    (h : V1.get_or_create_proxy_config name tok2 tok8 t = .ok (cfg, true)) :
    ∃ hp, V1.findPortPair (V1.usedPorts t) 8000 600 = some hp ∧
      cfg = V1.createConfig tok2 tok8 hp := by
  rw [V1.get_or_create_proxy_config] at h
  have halloc : ∀ (h2 : V1.allocateNew tok2 tok8 t = .ok (cfg, true)),
      ∃ hp, V1.findPortPair (V1.usedPorts t) 8000 600 = some hp ∧
        cfg = V1.createConfig tok2 tok8 hp := by
    intro h2
    rw [V1.allocateNew] at h2
    split at h2
    · rename_i hp hfind
      refine ⟨hp, hfind, ?_⟩
      injection h2 with h3
      injection h3 with h4 h5
      exact h4.symm
    · exact absurd h2 (by simp)
  split at h
  · split at h
    · injection h with h3
      injection h3 with h4 h5
      exact absurd h5 (by simp)
    · exact halloc h
  · exact halloc h

theorem V2.mem_usedHttpPorts {t : Table} {k : String} {c : Config}
    (hm : (k, c) ∈ t) : httpOf c ∈ V2.usedHttpPorts t :=
  List.mem_map_of_mem _ hm

theorem V2.mem_usedSocksPorts {t : Table} {k : String} {c : Config}
    (hm : (k, c) ∈ t) : socksOf c ∈ V2.usedSocksPorts t :=
  List.mem_map_of_mem _ hm

theorem V2.findFreePort_free {used : List (Option Val)} {s e p : Nat}
    (h : V2.findFreePort used s e = some p) : some (natVal p) ∉ used := by
  have := List.find?_some h
  simpa using this

/-- Inversion of the V2 allocator's creation path. -/
theorem V2.goc_created_inv_v2 {name tok2 tok8 : String} {t : Table} {cfg : Config}
    (h : V2.get_or_create_proxy_config name tok2 tok8 t = .ok (cfg, true)) :
    lookupKV t name = none ∧
    ∃ hp sp, V2.findFreePort (V2.usedHttpPorts t) 7001 8000 = some hp ∧
      V2.findFreePort (V2.usedSocksPorts t) 8001 9000 = some sp ∧
      cfg = V2.mkConfig hp sp tok2 tok8 := by
  rw [V2.get_or_create_proxy_config] at h
  split at h
  · injection h with h3
    injection h3 with h4 h5
    exact absurd h5 (by simp)
  · rename_i hnone
    refine ⟨hnone, ?_⟩
    split at h
    · rename_i hp sp hhp hsp
      refine ⟨hp, sp, hhp, hsp, ?_⟩
      injection h with h3
      injection h3 with h4 h5
      exact h4.symm
    · exact absurd h (by simp)

theorem reachV1_pairwise {t : Table} (h : ReachV1 t) : t.Pairwise PortsDistinct := by
  induction h with
  | nil => exact List.Pairwise.nil
  | step hr hgoc ih =>
    rename_i t₀ name₀ tok2₀ tok8₀ cfg₀
    obtain ⟨hp, hfind, rfl⟩ := V1.goc_created_inv_v1 hgoc
    obtain ⟨hfree1, hfree2⟩ := V1.findPortPair_free 600 8000 hp hfind
    apply pairwise_setKV (fun _ _ h => portsDistinct_symm h) _ _ _ ih
    intro e he
    constructor
    · intro v hv hcontra
      have hhead : httpOf (name₀, V1.createConfig tok2₀ tok8₀ hp).2 = some (natVal hp) := rfl
      rw [hhead] at hcontra
      injection hcontra with hveq
      exact hfree1 (hveq ▸ V1.mem_usedPorts_of_http (k := e.1) (by exact he) hv)
    · intro v hv hcontra
      have hhead : socksOf (name₀, V1.createConfig tok2₀ tok8₀ hp).2 = some (natVal (hp + 1)) := rfl
      rw [hhead] at hcontra
      injection hcontra with hveq
      exact hfree2 (hveq ▸ V1.mem_usedPorts_of_socks (k := e.1) (by exact he) hv)

theorem reachV2_pairwise {t : Table} (h : ReachV2 t) : t.Pairwise PortsDistinct := by
  induction h with
  | nil => exact List.Pairwise.nil
  | step hr hgoc ih =>
    rename_i t₀ name₀ tok2₀ tok8₀ cfg₀
    obtain ⟨hnone, hp, sp, hhp, hsp, rfl⟩ := V2.goc_created_inv_v2 hgoc
    have hfree1 := V2.findFreePort_free hhp
    have hfree2 := V2.findFreePort_free hsp
    apply pairwise_setKV (fun _ _ h => portsDistinct_symm h) _ _ _ ih
    intro e he
    constructor
    · intro v hv hcontra
      have hhead : httpOf (name₀, V2.mkConfig hp sp tok2₀ tok8₀).2 = some (natVal hp) := rfl
      rw [hhead] at hcontra
      injection hcontra with hveq
      apply hfree1
      rw [hveq, ← hv]
      exact V2.mem_usedHttpPorts (k := e.1) (by exact he)
    · intro v hv hcontra
      have hhead : socksOf (name₀, V2.mkConfig hp sp tok2₀ tok8₀).2 = some (natVal sp) := rfl
      rw [hhead] at hcontra
      injection hcontra with hveq
      apply hfree2
      rw [hveq, ← hv]
      exact V2.mem_usedSocksPorts (k := e.1) (by exact he)

/-- `List.find?` over an ascending range returns the first hit: every smaller
in-range candidate fails the predicate. -/
theorem find?_range'_min (f : Nat → Bool) :
    ∀ (n s p : Nat), (List.range' s n).find? f = some p →
      ∀ q, s ≤ q → q < p → f q = false := by
  intro n
  induction n with
  | zero =>
    intro s p h
    simp at h
  | succ n ih =>
    intro s p h q hq hqp
    rw [List.range'_succ] at h
    rcases List.find?_cons_eq_some.mp h with ⟨hfs, rfl⟩ | ⟨hfs, hrest⟩
    · omega
    · by_cases hqs : q = s
      · subst hqs
        simpa using hfs
      · exact ih (s + 1) p hrest q (by omega) hqp

theorem find?_range'_bounds {f : Nat → Bool} {n s p : Nat}
    (h : (List.range' s n).find? f = some p) : s ≤ p ∧ p < s + n := by
  have := List.mem_of_find?_eq_some h
  exact List.mem_range'_1.mp this

/-- C1: every allocation table reachable by a sequence of
`get_or_create_proxy_config` calls (each newly created allocation persisted
back into the table before the next call) gives any two allocations of
distinct device identifiers distinct `httpPort` values and distinct
`socksPort` values — proved for both snapshots of the allocator. -/
theorem C1_distinct_ports_invariant :
    (∀ t, ReachV1 t → ∀ a ca b cb, (a, ca) ∈ t → (b, cb) ∈ t → a ≠ b →
      (∀ v, httpOf ca = some v → httpOf cb ≠ some v) ∧
      (∀ v, socksOf ca = some v → socksOf cb ≠ some v)) ∧
    (∀ t, ReachV2 t → ∀ a ca b cb, (a, ca) ∈ t → (b, cb) ∈ t → a ≠ b →
      (∀ v, httpOf ca = some v → httpOf cb ≠ some v) ∧
      (∀ v, socksOf ca = some v → socksOf cb ≠ some v)) := by
  constructor
  · intro t hreach a ca b cb hma hmb hne
    have hpw := reachV1_pairwise hreach
    exact hpw.forall portsDistinct_symm hma hmb (fun hEq => hne (congrArg Prod.fst hEq))
  · intro t hreach a ca b cb hma hmb hne
    have hpw := reachV2_pairwise hreach
    exact hpw.forall portsDistinct_symm hma hmb (fun hEq => hne (congrArg Prod.fst hEq))

theorem C1_distinct_ports_invariant_witness :
    httpOf (V2.mkConfig 7002 8002 "cc" "dd") ≠ some (natVal 7001) ∧
    socksOf (V2.mkConfig 7002 8002 "cc" "dd") ≠ some (natVal 8001) := by
  have h0 : V2.get_or_create_proxy_config "wwan0" "aa" "bb" [] =
      .ok (V2.mkConfig 7001 8001 "aa" "bb", true) := rfl
  have h1 : V2.get_or_create_proxy_config "wwan1" "cc" "dd"
      (setKV [] "wwan0" (V2.mkConfig 7001 8001 "aa" "bb")) =
      .ok (V2.mkConfig 7002 8002 "cc" "dd", true) := rfl
  have hreach : ReachV2 (setKV (setKV [] "wwan0" (V2.mkConfig 7001 8001 "aa" "bb"))
      "wwan1" (V2.mkConfig 7002 8002 "cc" "dd")) :=
    ReachV2.step (ReachV2.step ReachV2.nil h0) h1
  have hm0 : ("wwan0", V2.mkConfig 7001 8001 "aa" "bb") ∈
      (setKV (setKV [] "wwan0" (V2.mkConfig 7001 8001 "aa" "bb"))
        "wwan1" (V2.mkConfig 7002 8002 "cc" "dd")) :=
    List.mem_cons_self _ _
  have hm1 : ("wwan1", V2.mkConfig 7002 8002 "cc" "dd") ∈
      (setKV (setKV [] "wwan0" (V2.mkConfig 7001 8001 "aa" "bb"))
        "wwan1" (V2.mkConfig 7002 8002 "cc" "dd")) :=
    List.mem_cons_of_mem _ (List.mem_cons_self _ _)
  obtain ⟨hhttp, hsocks⟩ := C1_distinct_ports_invariant.2 _ hreach
    "wwan0" (V2.mkConfig 7001 8001 "aa" "bb") "wwan1" (V2.mkConfig 7002 8002 "cc" "dd")
    hm0 hm1 (by decide)
  exact ⟨hhttp (natVal 7001) rfl, hsocks (natVal 8001) rfl⟩

/-- C2: for a device with no existing entry the V2 allocator claims the lowest
unused port of `range(7001, 8000)` as `httpPort` and, independently, the
lowest unused port of `range(8001, 9000)` as `socksPort`; concretely, from an
empty table `wwan0` receives `(7001, 8001)` and then `wwan1` receives
`(7002, 8002)`. -/
theorem C2_lowest_free_ports :
    (∀ (t : Table) (name tok2 tok8 : String) (cfg : Config) (created : Bool),
      lookupKV t name = none →
      V2.get_or_create_proxy_config name tok2 tok8 t = .ok (cfg, created) →
      created = true ∧
      (∃ hp, httpOf cfg = some (natVal hp) ∧ 7001 ≤ hp ∧ hp < 8000 ∧
        some (natVal hp) ∉ V2.usedHttpPorts t ∧
        (∀ q, 7001 ≤ q → q < hp → some (natVal q) ∈ V2.usedHttpPorts t)) ∧
      (∃ sp, socksOf cfg = some (natVal sp) ∧ 8001 ≤ sp ∧ sp < 9000 ∧
        some (natVal sp) ∉ V2.usedSocksPorts t ∧
        (∀ q, 8001 ≤ q → q < sp → some (natVal q) ∈ V2.usedSocksPorts t))) ∧
    (∀ tokA tokB tokC tokD : String,
      V2.get_or_create_proxy_config "wwan0" tokA tokB [] =
        .ok (V2.mkConfig 7001 8001 tokA tokB, true) ∧
      V2.get_or_create_proxy_config "wwan1" tokC tokD
          (setKV [] "wwan0" (V2.mkConfig 7001 8001 tokA tokB)) =
        .ok (V2.mkConfig 7002 8002 tokC tokD, true)) := by
  constructor
  · intro t name tok2 tok8 cfg created hlookup hgoc
    rw [V2.get_or_create_proxy_config, hlookup] at hgoc
    rcases hhp : V2.findFreePort (V2.usedHttpPorts t) 7001 8000 with _ | hp <;>
      rcases hsp : V2.findFreePort (V2.usedSocksPorts t) 8001 9000 with _ | sp <;>
      rw [hhp, hsp] at hgoc
    · exact Except.noConfusion hgoc
    · exact Except.noConfusion hgoc
    · exact Except.noConfusion hgoc
    · obtain ⟨h1, h2⟩ : V2.mkConfig hp sp tok2 tok8 = cfg ∧ true = created := by
        have h3 := Except.ok.inj hgoc
        exact ⟨congrArg Prod.fst h3, congrArg Prod.snd h3⟩
      subst h1
      subst h2
      refine ⟨rfl, ⟨hp, rfl, ?_, ?_, ?_, ?_⟩, ⟨sp, rfl, ?_, ?_, ?_, ?_⟩⟩
      · exact (find?_range'_bounds hhp).1
      · have := (find?_range'_bounds hhp).2
        omega
      · exact V2.findFreePort_free hhp
      · intro q hql hqu
        have := find?_range'_min _ _ _ _ hhp q hql hqu
        simpa using this
      · exact (find?_range'_bounds hsp).1
      · have := (find?_range'_bounds hsp).2
        omega
      · exact V2.findFreePort_free hsp
      · intro q hql hqu
        have := find?_range'_min _ _ _ _ hsp q hql hqu
        simpa using this
  · intro tokA tokB tokC tokD
    exact ⟨rfl, rfl⟩

theorem C2_lowest_free_ports_witness :
    (true : Bool) = true ∧
    (∃ hp, httpOf (V2.mkConfig 7001 8001 "x" "y") = some (natVal hp) ∧
      7001 ≤ hp ∧ hp < 8000 ∧
      some (natVal hp) ∉ V2.usedHttpPorts ([] : Table) ∧
      (∀ q, 7001 ≤ q → q < hp → some (natVal q) ∈ V2.usedHttpPorts ([] : Table))) ∧
    (∃ sp, socksOf (V2.mkConfig 7001 8001 "x" "y") = some (natVal sp) ∧
      8001 ≤ sp ∧ sp < 9000 ∧
      some (natVal sp) ∉ V2.usedSocksPorts ([] : Table) ∧
      (∀ q, 8001 ≤ q → q < sp → some (natVal q) ∈ V2.usedSocksPorts ([] : Table))) :=
  C2_lowest_free_ports.1 [] "wwan0" "x" "y" (V2.mkConfig 7001 8001 "x" "y") true rfl rfl

/-- C3: if the entry for the device already has both `httpPort` and
`socksPort` set, both snapshots of `get_or_create_proxy_config` return that
entry unchanged with `created = false`; consequently the
reconcile-and-persist call-site leaves the table untouched and repeated calls
(with arbitrary fresh random credentials) return the identical allocation. -/
theorem C3_idempotent_existing_allocation :
    ∀ (t : Table) (name : String) (c : Config) (hv sv : Val),
      lookupKV t name = some c → httpOf c = some hv → socksOf c = some sv →
      (∀ tok2 tok8, V1.get_or_create_proxy_config name tok2 tok8 t = .ok (c, false) ∧
        V1.reconcileOne name tok2 tok8 t = .ok (c, t)) ∧
      (∀ tok2 tok8, V2.get_or_create_proxy_config name tok2 tok8 t = .ok (c, false) ∧
        V2.reconcileOne name tok2 tok8 t = .ok (c, t)) := by
  intro t name c hv sv hlookup hhv hsv
  have hguard : (httpOf c).isSome ∧ (socksOf c).isSome := by
    rw [hhv, hsv]
    exact ⟨rfl, rfl⟩
  constructor
  · intro tok2 tok8
    have hgoc : V1.get_or_create_proxy_config name tok2 tok8 t = .ok (c, false) := by
      rw [V1.get_or_create_proxy_config, hlookup]
      simp [hguard]
    refine ⟨hgoc, ?_⟩
    rw [V1.reconcileOne, hgoc]
    exact rfl
  · intro tok2 tok8
    have hgoc : V2.get_or_create_proxy_config name tok2 tok8 t = .ok (c, false) := by
      rw [V2.get_or_create_proxy_config, hlookup]
    refine ⟨hgoc, ?_⟩
    rw [V2.reconcileOne, hgoc]
    exact rfl

theorem C3_idempotent_existing_allocation_witness :
    V1.get_or_create_proxy_config "wwan0" "r" "s"
      [("wwan0", V2.mkConfig 7001 8001 "x" "y")] =
      .ok (V2.mkConfig 7001 8001 "x" "y", false) ∧
    V1.reconcileOne "wwan0" "r" "s" [("wwan0", V2.mkConfig 7001 8001 "x" "y")] =
      .ok (V2.mkConfig 7001 8001 "x" "y", [("wwan0", V2.mkConfig 7001 8001 "x" "y")]) ∧
    V2.get_or_create_proxy_config "wwan0" "r" "s"
      [("wwan0", V2.mkConfig 7001 8001 "x" "y")] =
      .ok (V2.mkConfig 7001 8001 "x" "y", false) := by
  obtain ⟨hA, hB⟩ := C3_idempotent_existing_allocation
    [("wwan0", V2.mkConfig 7001 8001 "x" "y")] "wwan0" (V2.mkConfig 7001 8001 "x" "y")
    (natVal 7001) (natVal 8001) rfl rfl rfl
  exact ⟨(hA "r" "s").1, (hA "r" "s").2, (hB "r" "s").1⟩

/-- C4 counterexample: a persisted file whose bytes fail to parse because
they are not valid UTF-8 makes both snapshots of `read_state_file` raise
`UnicodeDecodeError` instead of returning the caller-supplied default — the
`except (json.JSONDecodeError, IOError)` clauses do not catch it.  This
refutes "read(k) returns the caller-supplied default — without raising —
whenever ... the persisted bytes fail to parse". -/
theorem C4_state_store_counterexample :
    (fun _ => (some FileContent.undecodable : Option (FileContent Table)))
      "proxy_configs.json" = some FileContent.undecodable ∧
    V1.read_state_file (fun _ => (some FileContent.undecodable : Option (FileContent Table)))
      "proxy_configs.json" ([] : Table) =
      .error "UnicodeDecodeError: invalid continuation byte" ∧
    V1.read_state_file (fun _ => (some FileContent.undecodable : Option (FileContent Table)))
      "proxy_configs.json" ([] : Table) ≠ .ok ([] : Table) ∧
    V2.read_state_file (fun _ => (some FileContent.undecodable : Option (FileContent Table)))
      "proxy_configs.json" ([] : Table) ≠ .ok ([] : Table) := by
  refine ⟨rfl, rfl, ?_, ?_⟩ <;> intro h <;> exact Except.noConfusion h

/-- C4 (amended): writing a document and reading it back yields the document,
for both snapshots of the state store; a missing file, or persisted bytes
that decode as UTF-8 text but fail to parse as JSON, yield the
caller-supplied default without raising; persisted bytes that are not
decodable as UTF-8 raise `UnicodeDecodeError` out of the read, uncaught by
either snapshot's `except` clause. -/
theorem C4_state_store_amended :
    ∀ {α : Type} (fs : FSys α) (k : String) (d dflt : α),
      V1.read_state_file (V1.write_state_file fs k d) k dflt = .ok d ∧
      ((V2.write_state_file fs k d).1 = true ∧
        V2.read_state_file (V2.write_state_file fs k d).2 k dflt = .ok d) ∧
      (fs k = none →
        V1.read_state_file fs k dflt = .ok dflt ∧
        V2.read_state_file fs k dflt = .ok dflt) ∧
      (fs k = some FileContent.corrupt →
        V1.read_state_file fs k dflt = .ok dflt ∧
        V2.read_state_file fs k dflt = .ok dflt) ∧
      (fs k = some FileContent.undecodable →
        V1.read_state_file fs k dflt =
          .error "UnicodeDecodeError: invalid continuation byte" ∧
        V2.read_state_file fs k dflt =
          .error "UnicodeDecodeError: invalid continuation byte") := by
  intro α fs k d dflt
  refine ⟨?_, ⟨rfl, ?_⟩, ?_, ?_, ?_⟩
  · simp [V1.read_state_file, V1.write_state_file, FSys.update]
  · simp [V2.read_state_file, V2.write_state_file, FSys.update]
  · intro h
    constructor <;> simp [V1.read_state_file, V2.read_state_file, h]
  · intro h
    constructor <;> simp [V1.read_state_file, V2.read_state_file, h]
  · intro h
    constructor <;> simp [V1.read_state_file, V2.read_state_file, h]

theorem C4_state_store_amended_witness :
    V1.read_state_file
      (V1.write_state_file (fun _ => none) "proxy_configs.json"
        [("wwan0", V2.mkConfig 7001 8001 "x" "y")])
      "proxy_configs.json" ([] : Table) =
      .ok [("wwan0", V2.mkConfig 7001 8001 "x" "y")] ∧
    V1.read_state_file (fun _ => (none : Option (FileContent Table)))
      "proxy_configs.json" ([] : Table) = .ok ([] : Table) ∧
    V1.read_state_file (fun _ => (some FileContent.corrupt : Option (FileContent Table)))
      "proxy_configs.json" ([] : Table) = .ok ([] : Table) ∧
    V2.read_state_file (fun _ => (some FileContent.undecodable : Option (FileContent Table)))
      "proxy_configs.json" ([] : Table) =
      .error "UnicodeDecodeError: invalid continuation byte" := by
  obtain ⟨h1, _, h3, _, _⟩ := C4_state_store_amended (fun _ => none) "proxy_configs.json"
    [("wwan0", V2.mkConfig 7001 8001 "x" "y")] ([] : Table)
  obtain ⟨_, _, _, h4, _⟩ := C4_state_store_amended (fun _ => some FileContent.corrupt)
    "proxy_configs.json" ([("t", [])] : Table) ([] : Table)
  obtain ⟨_, _, _, _, h5⟩ := C4_state_store_amended (fun _ => some FileContent.undecodable)
    "proxy_configs.json" ([("t", [])] : Table) ([] : Table)
  exact ⟨h1, (h3 rfl).1, (h4 rfl).1, (h5 rfl).2⟩

/-- C5: after every append both snapshots of the log buffer hold at most 200
entries; from a log at or above the bound an append evicts the oldest entries
down to 199 and appends the new entry last, leaving exactly 200; and folding
appends from the empty log keeps exactly the most recent 200 entries in
order, evicting the oldest ones. -/
theorem C5_log_ring_buffer :
    (∀ (l : List String) (e : String),
      (V1.log_append l e).length ≤ V1.LOG_MAX_ENTRIES ∧
      (V2.log_append l e).length ≤ V1.LOG_MAX_ENTRIES) ∧
    (∀ (l : List String) (e : String), V1.LOG_MAX_ENTRIES ≤ l.length →
      V1.log_append l e = l.drop (l.length - (V1.LOG_MAX_ENTRIES - 1)) ++ [e] ∧
      V2.log_append l e = l.drop (l.length - (V1.LOG_MAX_ENTRIES - 1)) ++ [e] ∧
      (V1.log_append l e).length = V1.LOG_MAX_ENTRIES ∧
      (V2.log_append l e).length = V1.LOG_MAX_ENTRIES) ∧
    (∀ es : List String,
      List.foldl V1.log_append [] es = es.drop (es.length - V1.LOG_MAX_ENTRIES) ∧
      List.foldl V2.log_append [] es = es.drop (es.length - V1.LOG_MAX_ENTRIES)) := by
  refine ⟨?_, ?_, ?_⟩
  · intro l e
    exact log_append_length l e
  · intro l e hl
    have hl200 : 200 ≤ l.length := hl
    obtain ⟨h1, h2⟩ := log_append_closed_form l e
    refine ⟨h1, h2, ?_, ?_⟩
    · rw [h1]
      simp only [List.length_append, List.length_drop, List.length_singleton]
      show _ = 200
      omega
    · rw [h2]
      simp only [List.length_append, List.length_drop, List.length_singleton]
      show _ = 200
      omega
  · intro es
    exact ⟨log_foldl_core _ (fun l x => (log_append_closed_form l x).1) es,
      log_foldl_core _ (fun l x => (log_append_closed_form l x).2) es⟩

theorem C5_log_ring_buffer_witness :
    (V1.log_append (List.replicate 200 "old") "new").length = V1.LOG_MAX_ENTRIES ∧
    (V2.log_append (List.replicate 200 "old") "new").length = V1.LOG_MAX_ENTRIES := by
  obtain ⟨-, -, h3, h4⟩ :=
    C5_log_ring_buffer.2.1 (List.replicate 200 "old") "new"
      (by rw [List.length_replicate]; exact Nat.le_refl 200)
  exact ⟨h3, h4⟩

/-- Two strings whose first characters differ are distinct.  The data-shape
hypotheses are provable by `rfl` even when the strings are appends with
symbolic parts, since the leading literal reduces. -/
theorem ne_of_head_char (c d : Char) {cs ds : List Char} {s t : String}
    (hs : s.data = c :: cs) (ht : t.data = d :: ds) (hcd : c ≠ d) : s ≠ t := by
  intro h
  have h2 : (c :: cs : List Char) = d :: ds := by rw [← hs, ← ht, h]
  injection h2 with h3 _
  exact hcd h3

/-- Two strings whose second characters differ are distinct. -/
theorem ne_of_second_char (c1 c2 d1 d2 : Char) {cs ds : List Char} {s t : String}
    (hs : s.data = c1 :: c2 :: cs) (ht : t.data = d1 :: d2 :: ds) (hcd : c2 ≠ d2) :
    s ≠ t := by
  intro h
  have h2 : (c1 :: c2 :: cs : List Char) = d1 :: d2 :: ds := by rw [← hs, ← ht, h]
  injection h2 with h3 h4
  injection h4 with h5 _
  exact hcd h5

/-- C6 counterexample: a record whose `httpPort` is set to the falsy value
`0`, with `socksPort` set and a non-empty egress IP, still renders as absent —
refuting "returns absent exactly when egressIp is empty/unset or either port
is unset". -/
theorem C6_render_counterexample :
    lookupKV ([("httpPort", natVal 0), ("socksPort", natVal 8001),
        ("username", Val.str "u"), ("password", Val.str "p")] : Config) "httpPort" =
      some (natVal 0) ∧
    lookupKV ([("httpPort", natVal 0), ("socksPort", natVal 8001),
        ("username", Val.str "u"), ("password", Val.str "p")] : Config) "socksPort" =
      some (natVal 8001) ∧
    ("1.2.3.4" : String) ≠ "" ∧
    V2.generate_3proxy_config_content
      [("httpPort", natVal 0), ("socksPort", natVal 8001),
       ("username", Val.str "u"), ("password", Val.str "p")] "1.2.3.4" = none := by
  refine ⟨rfl, rfl, ?_, rfl⟩
  decide

/-- C6 (amended): the V2 renderer returns absent exactly when the egress IP is
empty or either port value is missing or falsy (Python truthiness, e.g. port
`0`); otherwise the deterministic rendered text embeds the
`users`/`auth strong`/`allow` directives exactly when both username and
password are present and truthy, embeds `auth none` otherwise, binds both
listeners to all interfaces (`0.0.0.0`), and routes egress via the egress
IP. -/
theorem C6_render_amended :
    (∀ (c : Config) (egress : String),
      V2.generate_3proxy_config_content c egress = none ↔
        (egress = "" ∨ truthyO (httpOf c) = false ∨ truthyO (socksOf c) = false)) ∧
    (∀ (c : Config) (egress : String) (L : List String),
      V2.generate_3proxy_lines c egress = some L →
      V2.generate_3proxy_config_content c egress = some (String.intercalate "\n" L) ∧
      (∀ u p : String, lookupKV c "username" = some (Val.str u) →
        lookupKV c "password" = some (Val.str p) → u ≠ "" → p ≠ "" →
        ("users " ++ u ++ ":CL:" ++ p) ∈ L ∧ "auth strong" ∈ L ∧
        ("allow " ++ u) ∈ L ∧ "auth none" ∉ L) ∧
      ((truthyO (lookupKV c "username") = false ∨ truthyO (lookupKV c "password") = false) →
        "auth none" ∈ L ∧ "auth strong" ∉ L ∧ (∀ s : String, ("users " ++ s) ∉ L)) ∧
      (∀ v : Val, httpOf c = some v →
        ("proxy " ++ V2.proxyFlags (truthyO (lookupKV c "username") &&
            truthyO (lookupKV c "password")) ++
          " -p" ++ v.pyStr ++ " -i0.0.0.0 -e" ++ egress) ∈ L) ∧
      (∀ v : Val, socksOf c = some v →
        ("socks -p" ++ v.pyStr ++ " -i0.0.0.0 -e" ++ egress) ∈ L)) := by
  constructor
  · intro c egress
    rw [V2.generate_3proxy_config_content, V2.generate_3proxy_lines]
    split
    · rename_i hg
      simp only [Option.map_none']
      exact ⟨fun _ => hg, fun _ => by simp⟩
    · rename_i hg
      simp only [Option.map_some']
      exact iff_of_false (by simp) hg
  · intro c egress L hL
    rw [V2.generate_3proxy_lines] at hL
    split at hL
    · exact Option.noConfusion hL
    · rename_i hg
      have hLe := Option.some.inj hL
      subst hLe
      refine ⟨?_, ?_, ?_, ?_, ?_⟩
      · rw [V2.generate_3proxy_config_content, V2.generate_3proxy_lines, if_neg hg]
        rfl
      · intro u p hu hp hune hpne
        have hauth : (truthyO (lookupKV c "username") &&
            truthyO (lookupKV c "password")) = true := by
          rw [hu, hp]
          simp [truthyO, Val.truthy, hune, hpne]
        rw [hauth, hu, hp]
        refine ⟨?_, ?_, ?_, ?_⟩
        · simp [pyStrO, Val.pyStr]
        · simp
        · simp [pyStrO, Val.pyStr]
        · intro hmem
          rcases List.mem_append.mp hmem with h1 | h1
          · rcases List.mem_append.mp h1 with h2 | h2
            · exact absurd h2 (by decide)
            · rw [if_pos rfl] at h2
              rcases List.mem_cons.mp h2 with h3 | h3
              · exact ne_of_head_char 'a' 'u' rfl rfl (by decide) h3
              · rcases List.mem_cons.mp h3 with h4 | h4
                · exact absurd h4 (by decide)
                · rcases List.mem_cons.mp h4 with h5 | h5
                  · exact ne_of_second_char 'a' 'u' 'a' 'l' rfl rfl (by decide) h5
                  · exact absurd h5 (by simp)
          · rcases List.mem_cons.mp h1 with h2 | h2
            · exact ne_of_head_char 'a' 'p' rfl rfl (by decide) h2
            · rcases List.mem_cons.mp h2 with h3 | h3
              · exact ne_of_head_char 'a' 's' rfl rfl (by decide) h3
              · rcases List.mem_cons.mp h3 with h4 | h4
                · exact absurd h4 (by decide)
                · exact absurd h4 (by simp)
      · intro hanon
        have hauth : (truthyO (lookupKV c "username") &&
            truthyO (lookupKV c "password")) = false := by
          rcases hanon with h | h <;> simp [h]
        rw [hauth]
        refine ⟨?_, ?_, ?_⟩
        · simp
        · intro hmem
          rcases List.mem_append.mp hmem with h1 | h1
          · rcases List.mem_append.mp h1 with h2 | h2
            · exact absurd h2 (by decide)
            · rw [if_neg (by simp)] at h2
              rcases List.mem_cons.mp h2 with h3 | h3
              · exact absurd h3 (by decide)
              · exact absurd h3 (by simp)
          · rcases List.mem_cons.mp h1 with h2 | h2
            · exact ne_of_head_char 'a' 'p' rfl rfl (by decide) h2
            · rcases List.mem_cons.mp h2 with h3 | h3
              · exact ne_of_head_char 'a' 's' rfl rfl (by decide) h3
              · rcases List.mem_cons.mp h3 with h4 | h4
                · exact absurd h4 (by decide)
                · exact absurd h4 (by simp)
        · intro s hmem
          rcases List.mem_append.mp hmem with h1 | h1
          · rcases List.mem_append.mp h1 with h2 | h2
            · rw [V2.baseLines] at h2
              rcases List.mem_cons.mp h2 with h3 | h3
              · exact ne_of_head_char 'u' 'n' rfl rfl (by decide) h3
              · rcases List.mem_cons.mp h3 with h4 | h4
                · exact ne_of_head_char 'u' 'n' rfl rfl (by decide) h4
                · rcases List.mem_cons.mp h4 with h5 | h5
                  · exact ne_of_head_char 'u' 'n' rfl rfl (by decide) h5
                  · rcases List.mem_cons.mp h5 with h6 | h6
                    · exact ne_of_head_char 'u' 't' rfl rfl (by decide) h6
                    · rcases List.mem_cons.mp h6 with h7 | h7
                      · exact ne_of_head_char 'u' 'd' rfl rfl (by decide) h7
                      · exact absurd h7 (by simp)
            · rw [if_neg (by simp)] at h2
              rcases List.mem_cons.mp h2 with h3 | h3
              · exact ne_of_head_char 'u' 'a' rfl rfl (by decide) h3
              · exact absurd h3 (by simp)
          · rcases List.mem_cons.mp h1 with h2 | h2
            · exact ne_of_head_char 'u' 'p' rfl rfl (by decide) h2
            · rcases List.mem_cons.mp h2 with h3 | h3
              · exact ne_of_head_char 'u' 's' rfl rfl (by decide) h3
              · rcases List.mem_cons.mp h3 with h4 | h4
                · exact ne_of_head_char 'u' 'f' rfl rfl (by decide) h4
                · exact absurd h4 (by simp)
      · intro v hv
        rw [hv]
        simp [pyStrO]
      · intro v hv
        rw [hv]
        simp [pyStrO]

theorem C6_render_amended_witness :
    V2.generate_3proxy_config_content (V2.mkConfig 7001 8001 "alice" "pw12") "10.0.0.7" =
      some (String.intercalate "\n"
        ((V2.baseLines ++ ["users user_alice:CL:pw12", "auth strong", "allow user_alice"]) ++
          ["proxy -n -p7001 -i0.0.0.0 -e10.0.0.7", "socks -p8001 -i0.0.0.0 -e10.0.0.7",
           "flush"])) ∧
    "auth strong" ∈
      ((V2.baseLines ++ ["users user_alice:CL:pw12", "auth strong", "allow user_alice"]) ++
        ["proxy -n -p7001 -i0.0.0.0 -e10.0.0.7", "socks -p8001 -i0.0.0.0 -e10.0.0.7",
         "flush"]) := by
  obtain ⟨hcontent, hcred, -, -, -⟩ := C6_render_amended.2
    (V2.mkConfig 7001 8001 "alice" "pw12") "10.0.0.7"
    ((V2.baseLines ++ ["users user_alice:CL:pw12", "auth strong", "allow user_alice"]) ++
      ["proxy -n -p7001 -i0.0.0.0 -e10.0.0.7", "socks -p8001 -i0.0.0.0 -e10.0.0.7",
       "flush"]) (by decide)
  obtain ⟨-, hstrong, -, -⟩ := hcred "user_alice" "pw12" rfl rfl (by decide) (by decide)
  exact ⟨hcontent, hstrong⟩

theorem lookupKV_filter {f : (String × Config) → Bool} :
    ∀ (l : Table) (k : String) (v : Config), lookupKV (l.filter f) k = some v →
      (k, v) ∈ l ∧ f (k, v) = true := by
  intro l
  induction l with
  | nil =>
    intro k v h
    exact absurd h (by simp)
  | cons e rest ih =>
    intro k v h
    obtain ⟨k₀, v₀⟩ := e
    rw [List.filter_cons] at h
    split at h
    · rename_i hf
      rw [lookupKV_cons] at h
      split at h
      · rename_i hk
        injection h with hv
        subst hk
        subst hv
        exact ⟨List.mem_cons_self _ _, hf⟩
      · obtain ⟨hm, hf2⟩ := ih k v h
        exact ⟨List.mem_cons_of_mem _ hm, hf2⟩
    · obtain ⟨hm, hf2⟩ := ih k v h
      exact ⟨List.mem_cons_of_mem _ hm, hf2⟩

theorem mem_unique_keys : ∀ (l : Table), (l.map Prod.fst).Nodup →
    ∀ (k : String) (v w : Config), (k, v) ∈ l → (k, w) ∈ l → v = w := by
  intro l
  induction l with
  | nil => simp
  | cons e rest ih =>
    intro hnd k v w hv hw
    obtain ⟨k₀, v₀⟩ := e
    rw [List.map_cons, List.nodup_cons] at hnd
    obtain ⟨hk₀, hnd2⟩ := hnd
    rcases List.mem_cons.mp hv with h1 | h1 <;> rcases List.mem_cons.mp hw with h2 | h2
    · rw [Prod.mk.injEq] at h1 h2
      rw [h1.2, h2.2]
    · rw [Prod.mk.injEq] at h1
      have hk : k ∉ List.map Prod.fst rest := by
        rw [h1.1]
        simpa using hk₀
      exact absurd (List.mem_map_of_mem Prod.fst h2) hk
    · rw [Prod.mk.injEq] at h2
      have hk : k ∉ List.map Prod.fst rest := by
        rw [h2.1]
        simpa using hk₀
      exact absurd (List.mem_map_of_mem Prod.fst h1) hk
    · exact ih hnd2 k v w h1 h2

theorem tunnelScan_eq (alive : Int → Bool) :
    ∀ (t : Table), (∀ e ∈ t, probeOk alive (lookupKV e.2 "pid") = true) →
    V1.tunnelScan alive t =
      .ok ((livePids alive t).map (fun e => V1.mkTunnelStatus e.1 e.2),
           livePids alive t, t.any (fun e => !(liveB alive e))) := by
  intro t
  induction t with
  | nil =>
    intro _
    rfl
  | cons e rest ih =>
    intro hok
    obtain ⟨tid, info⟩ := e
    have hhead := hok (tid, info) (List.mem_cons_self _ _)
    have hrest := ih (fun x hx => hok x (List.mem_cons_of_mem _ hx))
    cases hb : V1.is_pid_running alive (lookupKV info "pid") with
    | error msg =>
      simp [probeOk, hb] at hhead
    | ok b =>
      cases b with
      | true =>
        have hlive : liveB alive (tid, info) = true := by simp [liveB, hb]
        simp [V1.tunnelScan, hb, hrest, livePids, List.filter_cons, hlive]
      | false =>
        have hlive : liveB alive (tid, info) = false := by simp [liveB, hb]
        simp [V1.tunnelScan, hb, hrest, livePids, List.filter_cons, hlive]

theorem lookup_foldl_set : ∀ (updates : Config) (acc : Config) (k : String),
    k ∉ updates.map Prod.fst →
    lookupKV (List.foldl (fun c kv => setKV c kv.1 kv.2) acc updates) k = lookupKV acc k := by
  intro updates
  induction updates with
  | nil =>
    intro acc k _
    rfl
  | cons kv rest ih =>
    intro acc k hk
    rw [List.map_cons, List.mem_cons] at hk
    push_neg at hk
    rw [List.foldl_cons, ih _ k hk.2, lookupKV_setKV]
    rw [if_neg (fun h => hk.1 h.symm)]

theorem foldl_set_cons_comm : ∀ (rest : Config) (acc : Config) (k : String) (v : Val),
    k ∉ rest.map Prod.fst →
    List.foldl (fun c kv => setKV c kv.1 kv.2) ((k, v) :: acc) rest =
      (k, v) :: List.foldl (fun c kv => setKV c kv.1 kv.2) acc rest := by
  intro rest
  induction rest with
  | nil =>
    intro acc k v _
    rfl
  | cons kv2 rest ih =>
    intro acc k v hk
    rw [List.map_cons, List.mem_cons] at hk
    push_neg at hk
    rw [List.foldl_cons, List.foldl_cons]
    have hset : setKV ((k, v) :: acc) kv2.1 kv2.2 = (k, v) :: setKV acc kv2.1 kv2.2 := by
      rw [setKV, if_neg hk.1]
    rw [hset, ih _ k v hk.2]

theorem apply_updates_of_nodup : ∀ (updates : Config),
    (updates.map Prod.fst).Nodup → V1.apply_updates [] updates = updates := by
  intro updates
  induction updates with
  | nil =>
    intro _
    rfl
  | cons kv rest ih =>
    intro h
    rw [List.map_cons, List.nodup_cons] at h
    rw [V1.apply_updates, List.foldl_cons]
    have h1 : setKV ([] : Config) kv.1 kv.2 = [(kv.1, kv.2)] := rfl
    rw [h1, foldl_set_cons_comm rest [] kv.1 kv.2 h.1]
    rw [show List.foldl (fun c kv => setKV c kv.1 kv.2) ([] : Config) rest =
      V1.apply_updates [] rest from rfl, ih h.2]

/-- C7: `get_all_tunnel_statuses` probes every persisted record (hypotheses:
the persisted table reads successfully, has unique keys, and has well-typed
pid fields, as every table the system writes does), deletes every record
whose pid is not alive and persists the deletion before the call returns,
reports exactly the live records with status `active`, and a dead record
stays absent on a subsequent call. -/
theorem C7_tunnel_status_reconciliation (alive : Int → Bool) (fs : FSys Table)
    (pids : Table)
    (hread : V1.get_tunnel_pids fs = .ok pids)
    (hok : ∀ e ∈ pids, probeOk alive (lookupKV e.2 "pid") = true)
    (hnodup : (pids.map Prod.fst).Nodup) :
    ∃ fs2,
      V1.get_all_tunnel_statuses alive fs =
        .ok ((livePids alive pids).map (fun e => V1.mkTunnelStatus e.1 e.2), fs2) ∧
      V1.get_tunnel_pids fs2 = .ok (livePids alive pids) ∧
      (∀ st ∈ (livePids alive pids).map (fun e => V1.mkTunnelStatus e.1 e.2),
        lookupKV st "status" = some (Val.str "active")) ∧
      (∀ tid info, (tid, info) ∈ pids →
        V1.is_pid_running alive (lookupKV info "pid") = .ok false →
        lookupKV (livePids alive pids) tid = none) ∧
      V1.get_all_tunnel_statuses alive fs2 =
        .ok ((livePids alive pids).map (fun e => V1.mkTunnelStatus e.1 e.2), fs2) := by
  have hscan := tunnelScan_eq alive pids hok
  refine ⟨if pids.any (fun e => !(liveB alive e)) then
      V1.save_tunnel_pids fs (livePids alive pids) else fs,
    ?_, ?_, ?_, ?_, ?_⟩
  case refine_1 =>
    simp only [V1.get_all_tunnel_statuses, hread, hscan]
  case refine_2 =>
    split
    · exact V1.read_write fs V1.TUNNEL_PIDS_FILE _ []
    · rename_i hc
      have hc2 : pids.any (fun e => !(liveB alive e)) = false :=
        Bool.eq_false_iff.mpr hc
      have hall : ∀ e ∈ pids, liveB alive e = true := by
        intro e he
        have h3 := List.any_eq_false.mp hc2 e he
        simpa using h3
      rw [livePids, List.filter_eq_self.mpr hall]
      exact hread
  case refine_3 =>
    intro st hst
    rw [List.mem_map] at hst
    obtain ⟨e, _, rfl⟩ := hst
    rfl
  case refine_4 =>
    intro tid info hmem hdead
    have hdlive : liveB alive (tid, info) = false := by simp [liveB, hdead]
    cases hlook : lookupKV (livePids alive pids) tid with
    | none => rfl
    | some v =>
      obtain ⟨hm2, hf2⟩ := lookupKV_filter _ tid v hlook
      have hveq : v = info := mem_unique_keys _ hnodup tid v info hm2 hmem
      rw [hveq] at hf2
      rw [hf2] at hdlive
      exact absurd hdlive (by simp)
  case refine_5 =>
    have hread2 : V1.get_tunnel_pids
        (if pids.any (fun e => !(liveB alive e)) then
          V1.save_tunnel_pids fs (livePids alive pids) else fs) =
        .ok (livePids alive pids) := by
      split
      · exact V1.read_write fs V1.TUNNEL_PIDS_FILE _ []
      · rename_i hc
        have hc2 : pids.any (fun e => !(liveB alive e)) = false :=
          Bool.eq_false_iff.mpr hc
        have hall : ∀ e ∈ pids, liveB alive e = true := by
          intro e he
          have h3 := List.any_eq_false.mp hc2 e he
          simpa using h3
        rw [livePids, List.filter_eq_self.mpr hall]
        exact hread
    have hok2 : ∀ e ∈ livePids alive pids,
        probeOk alive (lookupKV e.2 "pid") = true := by
      intro e he
      exact hok e (List.mem_filter.mp he).1
    have hfix : livePids alive (livePids alive pids) = livePids alive pids := by
      rw [livePids, livePids, List.filter_eq_self]
      intro e he
      exact (List.mem_filter.mp he).2
    have hany2 : (livePids alive pids).any (fun e => !(liveB alive e)) = false := by
      rw [List.any_eq_false]
      intro e he
      rw [livePids] at he
      have := (List.mem_filter.mp he).2
      simp [this]
    have hscan2 := tunnelScan_eq alive (livePids alive pids) hok2
    simp only [V1.get_all_tunnel_statuses, hread2, hscan2, hfix, hany2, if_false,
      Bool.false_eq_true]

theorem C7_tunnel_status_reconciliation_witness :
    ∃ fs2,
      V1.get_all_tunnel_statuses (fun n => n == 5)
        (V1.write_state_file (fun _ => none) V1.TUNNEL_PIDS_FILE
          [("t1", [("pid", natVal 5)]), ("t2", [("pid", natVal 6)])]) =
        .ok ([V1.mkTunnelStatus "t1" [("pid", natVal 5)]], fs2) ∧
      V1.get_tunnel_pids fs2 = .ok [("t1", [("pid", natVal 5)])] ∧
      lookupKV (livePids (fun n => n == 5)
        [("t1", [("pid", natVal 5)]), ("t2", [("pid", natVal 6)])]) "t2" = none := by
  obtain ⟨fs2, h1, h2, -, h4, -⟩ := C7_tunnel_status_reconciliation (fun n => n == 5)
    (V1.write_state_file (fun _ => none) V1.TUNNEL_PIDS_FILE
      [("t1", [("pid", natVal 5)]), ("t2", [("pid", natVal 6)])])
    [("t1", [("pid", natVal 5)]), ("t2", [("pid", natVal 6)])]
    rfl (by decide) (by decide)
  refine ⟨fs2, ?_, ?_, ?_⟩
  · exact h1
  · exact h2
  · exact h4 "t2" [("pid", natVal 6)] (by decide) rfl

/-- C8: `stop_tunnel` reports success and leaves the persisted table with no
entry for the tunnel id, for every initial table (readable, with a
well-typed pid on the id's record) and regardless of whether signalling the
process group succeeds: a stale or absent record is removed and success
returned, and for a live record the removal is unconditional even when
`killOk` is false. -/
theorem C8_stop_tunnel_always_cleans (alive killOk : Int → Bool) (tid : String)
    (fs : FSys Table) (pids : Table)
    (hread : V1.get_tunnel_pids fs = .ok pids)
    (hok : ∀ info, lookupKV pids tid = some info →
      probeOk alive (lookupKV info "pid") = true) :
    ∃ res pids2 fs2, V1.stop_tunnel alive killOk tid fs = .ok (res, fs2) ∧
      res.success = true ∧
      V1.get_tunnel_pids fs2 = .ok pids2 ∧
      lookupKV pids2 tid = none := by
  cases hlook : lookupKV pids tid with
  | none =>
    refine ⟨⟨true, "Tunnel was not running."⟩, pids, fs, ?_, rfl, hread, hlook⟩
    simp only [V1.stop_tunnel, hread, hlook]
  | some info =>
    have hp := hok info hlook
    cases hb : V1.is_pid_running alive (lookupKV info "pid") with
    | error msg =>
      simp [probeOk, hb] at hp
    | ok b =>
      cases b with
      | true =>
        refine ⟨⟨true, "Tunnel stopped."⟩, eraseKV pids tid,
          V1.save_tunnel_pids fs (eraseKV pids tid), ?_, rfl, ?_, ?_⟩
        · simp only [V1.stop_tunnel, hread, hlook, hb]
        · exact V1.read_write fs V1.TUNNEL_PIDS_FILE _ []
        · exact lookupKV_eraseKV _ tid
      | false =>
        refine ⟨⟨true, "Tunnel was not running."⟩, eraseKV pids tid,
          V1.save_tunnel_pids fs (eraseKV pids tid), ?_, rfl, ?_, ?_⟩
        · simp only [V1.stop_tunnel, hread, hlook, hb]
        · exact V1.read_write fs V1.TUNNEL_PIDS_FILE _ []
        · exact lookupKV_eraseKV _ tid

theorem C8_stop_tunnel_always_cleans_witness :
    ∃ res pids2 fs2,
      V1.stop_tunnel (fun n => n == 5) (fun _ => false) "t1"
        (V1.write_state_file (fun _ => none) V1.TUNNEL_PIDS_FILE
          [("t1", [("pid", natVal 5)])]) = .ok (res, fs2) ∧
      res.success = true ∧
      V1.get_tunnel_pids fs2 = .ok pids2 ∧
      lookupKV pids2 "t1" = none := by
  apply C8_stop_tunnel_always_cleans (fun n => n == 5) (fun _ => false) "t1"
    (V1.write_state_file (fun _ => none) V1.TUNNEL_PIDS_FILE
      [("t1", [("pid", natVal 5)])])
    [("t1", [("pid", natVal 5)])] rfl
  intro info hinfo
  obtain rfl : ([("pid", natVal 5)] : Config) = info :=
    Option.some.inj (show some ([("pid", natVal 5)] : Config) = some info from hinfo)
  decide

/-- C9: the routine non-zero outcome of the `is-active` query — the service
simply being inactive — makes the V1 `get_proxy_status` return `error`, not
`stopped`: `run_command` wraps `CalledProcessError`/`TimeoutExpired` into a
plain `Exception`, so the handler that would return `stopped` is dead code.
The V2 snapshot returns `stopped` for the same outcome and never surfaces an
error state at all. -/
theorem C9_status_error_on_inactive :
    V1.get_proxy_status "wwan0" "connected" (CmdOutcome.completed 3 "" "") = "error" ∧
    V2.get_proxy_status (CmdOutcome.completed 3 "" "") = "stopped" ∧
    (∀ oc, V2.get_proxy_status oc = "running" ∨ V2.get_proxy_status oc = "stopped") := by
  refine ⟨rfl, rfl, ?_⟩
  intro oc
  rw [V2.get_proxy_status]
  split
  · exact Or.inl rfl
  · exact Or.inr rfl

/-- C10: calling `update_proxy_config` for an interface with no existing
record (hypotheses: the persisted table reads successfully, and the
interface is not a key of it) inserts a record holding exactly the supplied
update fields — in particular one with neither `httpPort` nor `socksPort`
when the updates lack them — persists the table, and returns success.  The
restart side branch is excluded by hypothesis (no credential field updated,
or the proxy not running), matching the partial-record scenario. -/
theorem C10_update_inserts_partial_record (oc : CmdOutcome) (iface : String)
    (updates : Config) (fs : FSys Table) (all : Table)
    (hread : V1.read_state_file fs V1.PROXY_CONFIGS_FILE [] = .ok all)
    (hnew : lookupKV all iface = none)
    (hnorestart :
      updates.any (fun kv => kv.1 == "username" || kv.1 == "password") = false ∨
      V1.get_proxy_status iface "connected" oc ≠ "running") :
    ∃ res fs2, V1.update_proxy_config oc iface updates fs = (res, fs2, false) ∧
      res.success = true ∧
      res.data = V1.apply_updates [] updates ∧
      (∃ all2, V1.read_state_file fs2 V1.PROXY_CONFIGS_FILE [] = .ok all2 ∧
        lookupKV all2 iface = some (V1.apply_updates [] updates)) ∧
      ((updates.map Prod.fst).Nodup → V1.apply_updates [] updates = updates) ∧
      (∀ k, k ∉ updates.map Prod.fst →
        lookupKV (V1.apply_updates [] updates) k = none) := by
  have hbase : (lookupKV all iface).getD ([] : Config) = [] := by
    rw [hnew]
    rfl
  have hrestart : (updates.any (fun kv => kv.1 == "username" || kv.1 == "password") &&
      (V1.get_proxy_status iface "connected" oc == "running")) = false := by
    rcases hnorestart with h | h
    · rw [h, Bool.false_and]
    · have h2 : (V1.get_proxy_status iface "connected" oc == "running") = false :=
        beq_eq_false_iff_ne.mpr h
      rw [h2, Bool.and_false]
  refine ⟨⟨true, V1.apply_updates [] updates⟩,
    V1.write_state_file fs V1.PROXY_CONFIGS_FILE
      (setKV all iface (V1.apply_updates [] updates)), ?_, rfl, rfl, ?_, ?_, ?_⟩
  · simp only [V1.update_proxy_config, hread, hbase, hrestart]
  · refine ⟨setKV all iface (V1.apply_updates [] updates), ?_, ?_⟩
    · exact V1.read_write fs V1.PROXY_CONFIGS_FILE _ []
    · rw [lookupKV_setKV, if_pos rfl]
  · intro h
    exact apply_updates_of_nodup updates h
  · intro k hk
    rw [V1.apply_updates, lookup_foldl_set updates [] k hk]
    rfl

theorem C10_update_inserts_partial_record_witness :
    ∃ res fs2,
      V1.update_proxy_config (CmdOutcome.completed 3 "" "") "wwan9"
        [("customName", Val.str "office")] (fun _ => none) = (res, fs2, false) ∧
      res.success = true ∧
      res.data = V1.apply_updates [] [("customName", Val.str "office")] ∧
      (∃ all2, V1.read_state_file fs2 V1.PROXY_CONFIGS_FILE [] = .ok all2 ∧
        lookupKV all2 "wwan9" =
          some (V1.apply_updates [] [("customName", Val.str "office")])) ∧
      lookupKV (V1.apply_updates [] [("customName", Val.str "office")]) "httpPort" =
        none := by
  obtain ⟨res, fs2, h1, h2, h3, h4, -, h6⟩ :=
    C10_update_inserts_partial_record (CmdOutcome.completed 3 "" "") "wwan9"
      [("customName", Val.str "office")] (fun _ => none) [] rfl rfl
      (Or.inl (by decide))
  exact ⟨res, fs2, h1, h2, h3, h4, h6 "httpPort" (by decide)⟩

end ProxyPilot
